import Mathlib

/-!
Shallow embedding of the `uuid-rs` crate (files `src/lib.rs`, `src/time.rs`,
`src/name.rs`).  Machine integers are modelled as `Nat` with explicit
`% 2 ^ w` where wraparound matters; Rust's `&`, `|`, `<<`, `>>` on unsigned
integers are `Nat.land`, `Nat.lor`, `Nat.shiftLeft`, `Nat.shiftRight`.
The external collaborators (MD5, SHA-1, the wall clock, the random source and
the MAC-address lookup) are parameters of the functions that call them.
Fallible operations return `Option` (`none` models a panic).
-/

namespace Uuid

/-- 100-ns ticks between UNIX and UTC epochs (`UTC_EPOCH` in `lib.rs`). -/
def UTC_EPOCH : Nat := 0x01B21DD213814000

/-- `Version` enum from `lib.rs` (discriminants start at `TIME = 1`). -/
inductive Version where
  | TIME
  | DCE
  | MD5
  | RAND
  | SHA1
deriving DecidableEq, Repr

/-- The numeric discriminant of a `Version` (`v as u16` in Rust). -/
def Version.val : Version → Nat
  | .TIME => 1
  | .DCE => 2
  | .MD5 => 3
  | .RAND => 4
  | .SHA1 => 5

/-- `Variant` enum from `lib.rs` (discriminants start at `NCS = 0`). -/
inductive Variant where
  | NCS
  | RFC
  | MS
  | FUT
deriving DecidableEq, Repr

/-- The numeric discriminant of a `Variant` (`v as u8` in Rust). -/
def Variant.val : Variant → Nat
  | .NCS => 0
  | .RFC => 1
  | .MS => 2
  | .FUT => 3

/-- `Domain` enum from `lib.rs` (discriminants start at `PERSON = 0`). -/
inductive Domain where
  | PERSON
  | GROUP
  | ORG
deriving DecidableEq, Repr

/-- The numeric discriminant of a `Domain` (`d as u8` in Rust). -/
def Domain.val : Domain → Nat
  | .PERSON => 0
  | .GROUP => 1
  | .ORG => 2

/-- The `Layout` struct from `lib.rs`: the five-field decomposition of a UUID.
Rust field types are `u32, u16, u16, u8, u8, [u8; 6]`; here each field is a
`Nat` and the `node` array is a list of bytes, with well-formedness captured
by `Layout.WF`. -/
structure Layout where
  field_low : Nat
  field_mid : Nat
  field_high_and_version : Nat
  clock_seq_high_and_reserved : Nat
  clock_seq_low : Nat
  node : List Nat
deriving DecidableEq, Repr

/-- The bounds that the Rust types (`u32`, `u16`, `u8`, `[u8; 6]`) impose on a
`Layout`'s fields. -/
def Layout.WF (l : Layout) : Prop :=
  l.field_low < 2 ^ 32 ∧ l.field_mid < 2 ^ 16 ∧ l.field_high_and_version < 2 ^ 16 ∧
    l.clock_seq_high_and_reserved < 2 ^ 8 ∧ l.clock_seq_low < 2 ^ 8 ∧
    l.node.length = 6 ∧ ∀ b ∈ l.node, b < 2 ^ 8

instance (l : Layout) : Decidable l.WF := by
  unfold Layout.WF; infer_instance

/-- The `UUID` struct from `lib.rs`: 16 raw bytes. -/
structure UUID where
  bytes : List Nat
deriving DecidableEq, Repr

/-- Byte `j` of the big-endian representation of a `u32` (`x.to_be_bytes()[j]`). -/
def be32 (x j : Nat) : Nat := x / 2 ^ (8 * (3 - j)) % 256

/-- Byte `j` of the big-endian representation of a `u16` (`x.to_be_bytes()[j]`). -/
def be16 (x j : Nat) : Nat := x / 2 ^ (8 * (1 - j)) % 256

/-- `Layout::as_bytes` from `lib.rs`: serialize the five fields big-endian. -/
def Layout.as_bytes (l : Layout) : UUID :=
  ⟨[be32 l.field_low 0, be32 l.field_low 1, be32 l.field_low 2, be32 l.field_low 3,
    be16 l.field_mid 0, be16 l.field_mid 1,
    be16 l.field_high_and_version 0, be16 l.field_high_and_version 1,
    l.clock_seq_high_and_reserved, l.clock_seq_low] ++ l.node⟩

/-- `Layout::get_version` from `lib.rs`: match on bits 12-15 of
`field_high_and_version` (the Rust `match` on the nibble, written as the
equivalent chain of equality tests). -/
def Layout.get_version (l : Layout) : Option Version :=
  let nib := (l.field_high_and_version >>> 12) &&& 0xf
  if nib = 0x01 then some Version.TIME
  else if nib = 0x02 then some Version.DCE
  else if nib = 0x03 then some Version.MD5
  else if nib = 0x04 then some Version.RAND
  else if nib = 0x05 then some Version.SHA1
  else none

/-- `Layout::get_variant` from `lib.rs`: match on the top nibble of
`clock_seq_high_and_reserved` (the Rust `match` on the nibble, written as
the equivalent chain of equality tests). -/
def Layout.get_variant (l : Layout) : Option Variant :=
  let nib := (l.clock_seq_high_and_reserved >>> 4) &&& 0xf
  if nib = 0x00 then some Variant.NCS
  else if nib = 0x01 then some Variant.RFC
  else if nib = 0x02 then some Variant.MS
  else if nib = 0x03 then some Variant.FUT
  else none

/-- `Layout::get_time` from `lib.rs`:
`t = (field_high_and_version << 48) | (field_mid << 32) | field_low`, then
`t.checked_sub(UTC_EPOCH).unwrap()`.  `none` models the `unwrap` panic on
underflow. -/
def Layout.get_time? (l : Layout) : Option Nat :=
  let t := (l.field_high_and_version <<< 48) ||| (l.field_mid <<< 32) ||| l.field_low
  if t < UTC_EPOCH then none else some (t - UTC_EPOCH)

/-- `Timestamp::new` from `lib.rs`, with the wall clock reading (nanoseconds
since the UNIX epoch, `since_unix.as_nanos()`) as an explicit input:
divide by 100, add the epoch offset, keep the low 60 bits. -/
def Timestamp.new (nanos : Nat) : Nat :=
  (nanos / 100 + UTC_EPOCH) &&& 0x0fffffffffffffff

/-- `AtomicU16::fetch_add`: returns the previous value and the new cell
contents (wrapping `u16` addition). -/
def atomicU16FetchAdd (cell n : Nat) : Nat × Nat :=
  (cell, (cell + n) % 2 ^ 16)

/-- `ClockSeq::new` from `lib.rs`: mask the random seed to 14 bits, then
`AtomicU16::new(initial).fetch_add(1, AcqRel)` — the call returns the
previous (pre-increment) value of the freshly created atomic, and the
incremented cell is immediately dropped. -/
def ClockSeq.new (random_bits : Nat) : Nat :=
  let initial := random_bits &&& 0x3fff
  (atomicU16FetchAdd initial 1).1

/-- `UUID::clock_seq_high_and_reserved` from `time.rs`: split a fresh clock
sequence into the reserved-tagged high byte and the low byte.  `random_bits`
stands for the external `rand::random::<u16>()` call. -/
def UUID.clock_seq_high_and_reserved (s random_bits : Nat) : Nat × Nat :=
  let clock_seq := ClockSeq.new random_bits
  (((clock_seq >>> 8) &&& 0xf) ||| (s <<< 4), clock_seq &&& 0xff)

/-- `UUID::v1` from `time.rs`, with the external inputs (wall clock
nanoseconds, random bits, MAC address) and the process-wide `LAST_TIMESTAMP`
cell as explicit arguments.  Returns the built `Layout` together with the
value stored back into `LAST_TIMESTAMP`. -/
def UUID.v1 (nanos random_bits : Nat) (mac : List Nat) (last : Nat) : Layout × Nat :=
  let timestamp :=
    let t := Timestamp.new nanos
    if t ≤ last then (last + 1) % 2 ^ 64 else t
  let clock_seq := UUID.clock_seq_high_and_reserved Variant.RFC.val random_bits
  ({ field_low := timestamp &&& 0xffffffff,
     field_mid := (timestamp >>> 32) &&& 0xffff,
     field_high_and_version := ((timestamp >>> 48) &&& 0xfff) ||| (Version.TIME.val <<< 12),
     clock_seq_high_and_reserved := clock_seq.1,
     clock_seq_low := clock_seq.2,
     node := mac }, timestamp)

/-- `UUID::v2` from `time.rs`, with the same explicit external inputs and
`LAST_TIMESTAMP` state threading as `UUID.v1`. -/
def UUID.v2 (d : Domain) (nanos random_bits : Nat) (mac : List Nat) (last : Nat) :
    Layout × Nat :=
  let timestamp :=
    let t := Timestamp.new nanos
    if t ≤ last then (last + 1) % 2 ^ 64 else t
  ({ field_low := timestamp &&& 0xffffffff,
     field_mid := (timestamp >>> 32) &&& 0xffff,
     field_high_and_version := ((timestamp >>> 48) &&& 0xfff) ||| (Version.DCE.val <<< 12),
     clock_seq_high_and_reserved := (UUID.clock_seq_high_and_reserved Variant.RFC.val random_bits).1,
     clock_seq_low := d.val,
     node := mac }, timestamp)

/-- `UUID::from_mac` from `time.rs`: a fresh, unguarded timestamp with a
caller-supplied version and MAC address.  The source neither loads nor stores
`LAST_TIMESTAMP`, so no state argument appears. -/
def UUID.from_mac (v : Version) (mac : List Nat) (nanos random_bits : Nat) : Layout :=
  let timestamp := Timestamp.new nanos
  let clock_seq := UUID.clock_seq_high_and_reserved Variant.RFC.val random_bits
  { field_low := timestamp &&& 0xffffffff,
    field_mid := (timestamp >>> 32) &&& 0xffff,
    field_high_and_version := ((timestamp >>> 48) &&& 0xfff) ||| (v.val <<< 12),
    clock_seq_high_and_reserved := clock_seq.1,
    clock_seq_low := clock_seq.2,
    node := mac }

/-- Hex digit character for a value below 16, lowercase (as Rust's format
specifier produces). -/
def hexDigit (n : Nat) : Char :=
  if n < 10 then Char.ofNat (48 + n) else Char.ofNat (87 + n)

/-- Two lowercase hex digits for one byte (Rust's `{:02x}` on a `u8`). -/
def byteHex (b : Nat) : String :=
  String.mk [hexDigit (b / 16 % 16), hexDigit (b % 16)]

/-- The `Display` implementation for `UUID` from `lib.rs`: 16 bytes in
lowercase hex with hyphens after bytes 4, 6, 8 and 10. -/
def UUID.toStr (u : UUID) : String :=
  let b := u.bytes
  byteHex (b.getD 0 0) ++ byteHex (b.getD 1 0) ++ byteHex (b.getD 2 0) ++
    byteHex (b.getD 3 0) ++ "-" ++ byteHex (b.getD 4 0) ++ byteHex (b.getD 5 0) ++
    "-" ++ byteHex (b.getD 6 0) ++ byteHex (b.getD 7 0) ++ "-" ++
    byteHex (b.getD 8 0) ++ byteHex (b.getD 9 0) ++ "-" ++ byteHex (b.getD 10 0) ++
    byteHex (b.getD 11 0) ++ byteHex (b.getD 12 0) ++ byteHex (b.getD 13 0) ++
    byteHex (b.getD 14 0) ++ byteHex (b.getD 15 0)

/-- `UUID::NAMESPACE_DNS` from `lib.rs`. -/
def UUID.NAMESPACE_DNS : UUID :=
  ⟨[0x6b, 0xa7, 0xb8, 0x10, 0x9d, 0xad, 0x11, 0xd1, 0x80, 0xb4, 0x00, 0xc0, 0x4f, 0xd4,
    0x30, 0xc8]⟩

/-- `UUID::NAMESPACE_OID` from `lib.rs`. -/
def UUID.NAMESPACE_OID : UUID :=
  ⟨[0x6b, 0xa7, 0xb8, 0x12, 0x9d, 0xad, 0x11, 0xd1, 0x80, 0xb4, 0x00, 0xc0, 0x4f, 0xd4,
    0x30, 0xc8]⟩

/-- `UUID::NAMESPACE_URL` from `lib.rs`. -/
def UUID.NAMESPACE_URL : UUID :=
  ⟨[0x6b, 0xa7, 0xb8, 0x11, 0x9d, 0xad, 0x11, 0xd1, 0x80, 0xb4, 0x00, 0xc0, 0x4f, 0xd4,
    0x30, 0xc8]⟩

/-- `UUID::NAMESPACE_X500` from `lib.rs`. -/
def UUID.NAMESPACE_X500 : UUID :=
  ⟨[0x6b, 0xa7, 0xb8, 0x14, 0x9d, 0xad, 0x11, 0xd1, 0x80, 0xb4, 0x00, 0xc0, 0x4f, 0xd4,
    0x30, 0xc8]⟩

/-- `UUID::data` from `name.rs`: `format!("{}", namespace) + any`.  The
`namespace` argument is called `ns` here because `namespace` is a Lean
keyword. -/
def UUID.data (any : String) (ns : UUID) : String :=
  UUID.toStr ns ++ any

/-- `UUID::v3` from `name.rs`, with the external MD5 implementation
(`md5::compute` on the input string's bytes, 16-byte digest) as a parameter. -/
def UUID.v3 (md5 : String → List Nat) (any : String) (ns : UUID) : Layout :=
  let hash := md5 (UUID.data any ns)
  { field_low := ((hash.getD 0 0) <<< 24) ||| ((hash.getD 1 0) <<< 16) |||
      ((hash.getD 2 0) <<< 8) ||| hash.getD 3 0,
    field_mid := ((hash.getD 4 0) <<< 8) ||| hash.getD 5 0,
    field_high_and_version := (((hash.getD 6 0) <<< 8 ||| hash.getD 7 0) &&& 0xfff) |||
      (Version.MD5.val <<< 12),
    clock_seq_high_and_reserved := (hash.getD 8 0 &&& 0xf) ||| (Variant.RFC.val <<< 4),
    clock_seq_low := hash.getD 9 0,
    node := [hash.getD 10 0, hash.getD 11 0, hash.getD 12 0, hash.getD 13 0,
      hash.getD 14 0, hash.getD 15 0] }

/-- `UUID::v5` from `name.rs`, with the external SHA-1 implementation
(20-byte digest) as a parameter; only bytes 0-15 of the digest are used. -/
def UUID.v5 (sha1 : String → List Nat) (any : String) (ns : UUID) : Layout :=
  let hash := sha1 (UUID.data any ns)
  { field_low := ((hash.getD 0 0) <<< 24) ||| ((hash.getD 1 0) <<< 16) |||
      ((hash.getD 2 0) <<< 8) ||| hash.getD 3 0,
    field_mid := ((hash.getD 4 0) <<< 8) ||| hash.getD 5 0,
    field_high_and_version := (((hash.getD 6 0) <<< 8 ||| hash.getD 7 0) &&& 0xfff) |||
      (Version.SHA1.val <<< 12),
    clock_seq_high_and_reserved := (hash.getD 8 0 &&& 0xf) ||| (Variant.RFC.val <<< 4),
    clock_seq_low := hash.getD 9 0,
    node := [hash.getD 10 0, hash.getD 11 0, hash.getD 12 0, hash.getD 13 0,
      hash.getD 14 0, hash.getD 15 0] }

/-- One sequential call to a time-based generator, with its external inputs. -/
inductive TimeCall where
  | callV1 (nanos random_bits : Nat) (mac : List Nat)
  | callV2 (d : Domain) (nanos random_bits : Nat) (mac : List Nat)
  | callFromMac (v : Version) (mac : List Nat) (nanos random_bits : Nat)
deriving DecidableEq, Repr

/-- Whether a call goes through the `LAST_TIMESTAMP` monotonicity guard
(`UUID::v1` and `UUID::v2` do, `UUID::from_mac` does not). -/
def TimeCall.isGuarded : TimeCall → Bool
  | .callFromMac _ _ _ _ => false
  | _ => true

/-- Execute one call against the explicit `LAST_TIMESTAMP` state, returning
the built `Layout` and the state after the call. -/
def stepCall : TimeCall → Nat → Layout × Nat
  | .callV1 nanos rb mac, last => UUID.v1 nanos rb mac last
  | .callV2 d nanos rb mac, last => UUID.v2 d nanos rb mac last
  | .callFromMac v mac nanos rb, last => (UUID.from_mac v mac nanos rb, last)

/-- Execute a sequence of calls, threading the `LAST_TIMESTAMP` state; each
output pair is the layout built by a call together with the state after it. -/
def runCalls : List TimeCall → Nat → List (Layout × Nat)
  | [], _ => []
  | c :: cs, last =>
    let r := stepCall c last
    r :: runCalls cs r.2

/-- The 60-bit timestamp embedded in a layout's three time fields (the
version nibble masked off). -/
def embeddedTime (l : Layout) : Nat :=
  ((l.field_high_and_version &&& 0xfff) <<< 48) ||| (l.field_mid <<< 32) ||| l.field_low

/-! ### Arithmetic forms of the bitwise operations -/

theorem lor_eq_add {a b : Nat} (k : Nat) (ha : a % 2 ^ k = 0) (hb : b < 2 ^ k) :
    a ||| b = a + b := by
  have h := Nat.mul_add_lt_is_or (i := k) hb (a / 2 ^ k)
  have ha' : 2 ^ k * (a / 2 ^ k) = a := Nat.mul_div_cancel' (Nat.dvd_of_mod_eq_zero ha)
  rw [ha'] at h
  exact h.symm

theorem and_mask15 (x : Nat) : x &&& 15 = x % 16 := by
  have h := Nat.and_pow_two_sub_one_eq_mod x 4
  norm_num at h
  exact h

theorem and_mask255 (x : Nat) : x &&& 255 = x % 256 := by
  have h := Nat.and_pow_two_sub_one_eq_mod x 8
  norm_num at h
  exact h

theorem and_mask4095 (x : Nat) : x &&& 4095 = x % 4096 := by
  have h := Nat.and_pow_two_sub_one_eq_mod x 12
  norm_num at h
  exact h

theorem and_mask16383 (x : Nat) : x &&& 16383 = x % 16384 := by
  have h := Nat.and_pow_two_sub_one_eq_mod x 14
  norm_num at h
  exact h

theorem and_mask65535 (x : Nat) : x &&& 65535 = x % 65536 := by
  have h := Nat.and_pow_two_sub_one_eq_mod x 16
  norm_num at h
  exact h

theorem and_mask32bit (x : Nat) : x &&& 4294967295 = x % 4294967296 := by
  have h := Nat.and_pow_two_sub_one_eq_mod x 32
  norm_num at h
  exact h

theorem and_mask60bit (x : Nat) : x &&& 1152921504606846975 = x % 1152921504606846976 := by
  have h := Nat.and_pow_two_sub_one_eq_mod x 60
  norm_num at h
  exact h

theorem lor2_eq_add {b4 b5 : Nat} (h5 : b5 < 256) :
    (b4 <<< 8) ||| b5 = b4 * 256 + b5 := by
  rw [Nat.shiftLeft_eq, lor_eq_add 8 (by omega) (by omega)]

theorem lor3_eq_add {t1 t2 t3 : Nat} (h2 : t2 < 65536) (h3 : t3 < 4294967296) :
    (t1 <<< 48) ||| (t2 <<< 32) ||| t3 = t1 * 281474976710656 + t2 * 4294967296 + t3 := by
  rw [Nat.shiftLeft_eq, Nat.shiftLeft_eq, Nat.or_assoc,
    lor_eq_add 32 (a := t2 * 2 ^ 32) (by omega) (by omega),
    lor_eq_add 48 (by omega) (by omega)]
  omega

theorem lor4_eq_add {b0 b1 b2 b3 : Nat} (h1 : b1 < 256) (h2 : b2 < 256) (h3 : b3 < 256) :
    (b0 <<< 24) ||| (b1 <<< 16) ||| (b2 <<< 8) ||| b3 =
      b0 * 16777216 + b1 * 65536 + b2 * 256 + b3 := by
  rw [Nat.shiftLeft_eq, Nat.shiftLeft_eq, Nat.shiftLeft_eq, Nat.or_assoc, Nat.or_assoc,
    lor_eq_add 8 (a := b2 * 2 ^ 8) (by omega) (by omega),
    lor_eq_add 16 (a := b1 * 2 ^ 16) (by omega) (by omega),
    lor_eq_add 24 (by omega) (by omega)]
  omega

theorem pack_fhv12 (x v : Nat) : (x &&& 0xfff) ||| (v <<< 12) = x % 4096 + v * 4096 := by
  rw [and_mask4095, Nat.shiftLeft_eq, Nat.or_comm, lor_eq_add 12 (by omega) (by omega)]
  omega

theorem pack_csr (x s : Nat) : (x &&& 0xf) ||| (s <<< 4) = x % 16 + s * 16 := by
  rw [and_mask15, Nat.shiftLeft_eq, Nat.or_comm, lor_eq_add 4 (by omega) (by omega)]
  omega

theorem versionVal_lt (v : Version) : v.val < 16 := by
  cases v <;> decide

theorem domainVal_lt (d : Domain) : d.val < 256 := by
  cases d <;> decide

/-! ### Normal forms of the embedded operations -/

theorem tsNew_eq (nanos : Nat) :
    Timestamp.new nanos = (nanos / 100 + UTC_EPOCH) % 1152921504606846976 := by
  unfold Timestamp.new
  exact and_mask60bit _

theorem tsNew_lt (nanos : Nat) : Timestamp.new nanos < 2 ^ 60 := by
  rw [tsNew_eq]
  omega

theorem clockSeqNew_eq (rb : Nat) : ClockSeq.new rb = rb % 16384 := by
  unfold ClockSeq.new atomicU16FetchAdd
  exact and_mask16383 _

theorem clock_seq_pair_eq (s rb : Nat) :
    UUID.clock_seq_high_and_reserved s rb =
      (rb % 16384 / 256 % 16 + s * 16, rb % 16384 % 256) := by
  simp only [UUID.clock_seq_high_and_reserved]
  rw [Nat.shiftRight_eq_div_pow, pack_csr, clockSeqNew_eq, and_mask255]

/-- The guarded timestamp issued by one `UUID::v1` / `UUID::v2` call:
the fresh reading, bumped to `last + 1` (with `u64` wraparound) whenever it
does not exceed the stored `LAST_TIMESTAMP`. -/
def guardTs (nanos last : Nat) : Nat :=
  if Timestamp.new nanos ≤ last then (last + 1) % 2 ^ 64 else Timestamp.new nanos

theorem v1_eq (nanos rb : Nat) (mac : List Nat) (last : Nat) :
    UUID.v1 nanos rb mac last =
      ({ field_low := guardTs nanos last % 4294967296,
         field_mid := guardTs nanos last / 4294967296 % 65536,
         field_high_and_version := guardTs nanos last / 281474976710656 % 4096 + 4096,
         clock_seq_high_and_reserved := rb % 16384 / 256 % 16 + 16,
         clock_seq_low := rb % 16384 % 256,
         node := mac }, guardTs nanos last) := by
  simp only [UUID.v1, guardTs, clock_seq_pair_eq, Variant.val, Version.val]
  rw [and_mask32bit, Nat.shiftRight_eq_div_pow, and_mask65535,
    Nat.shiftRight_eq_div_pow, pack_fhv12]

theorem v2_eq (d : Domain) (nanos rb : Nat) (mac : List Nat) (last : Nat) :
    UUID.v2 d nanos rb mac last =
      ({ field_low := guardTs nanos last % 4294967296,
         field_mid := guardTs nanos last / 4294967296 % 65536,
         field_high_and_version := guardTs nanos last / 281474976710656 % 4096 + 8192,
         clock_seq_high_and_reserved := rb % 16384 / 256 % 16 + 16,
         clock_seq_low := d.val,
         node := mac }, guardTs nanos last) := by
  simp only [UUID.v2, guardTs, clock_seq_pair_eq, Variant.val, Version.val]
  rw [and_mask32bit, Nat.shiftRight_eq_div_pow, and_mask65535,
    Nat.shiftRight_eq_div_pow, pack_fhv12]

theorem from_mac_eq (v : Version) (mac : List Nat) (nanos rb : Nat) :
    UUID.from_mac v mac nanos rb =
      { field_low := Timestamp.new nanos % 4294967296,
        field_mid := Timestamp.new nanos / 4294967296 % 65536,
        field_high_and_version := Timestamp.new nanos / 281474976710656 % 4096 + v.val * 4096,
        clock_seq_high_and_reserved := rb % 16384 / 256 % 16 + 16,
        clock_seq_low := rb % 16384 % 256,
        node := mac } := by
  simp only [UUID.from_mac, clock_seq_pair_eq, Variant.val]
  rw [and_mask32bit, Nat.shiftRight_eq_div_pow, and_mask65535,
    Nat.shiftRight_eq_div_pow, pack_fhv12]

theorem embeddedTime_eq (l : Layout) (hfm : l.field_mid < 65536)
    (hfl : l.field_low < 4294967296) :
    embeddedTime l =
      l.field_high_and_version % 4096 * 281474976710656 + l.field_mid * 4294967296 +
        l.field_low := by
  unfold embeddedTime
  rw [and_mask4095, lor3_eq_add hfm hfl]

theorem get_time_eq (l : Layout) (hfm : l.field_mid < 65536)
    (hfl : l.field_low < 4294967296) :
    l.get_time? =
      if l.field_high_and_version * 281474976710656 + l.field_mid * 4294967296 +
          l.field_low < UTC_EPOCH then none
      else
        some (l.field_high_and_version * 281474976710656 + l.field_mid * 4294967296 +
          l.field_low - UTC_EPOCH) := by
  unfold Layout.get_time?
  rw [lor3_eq_add hfm hfl]

theorem nibble_add_mul (x v : Nat) (hx : x < 4096) (hv : v < 16) :
    ((x + v * 4096) >>> 12) &&& 0xf = v := by
  rw [Nat.shiftRight_eq_div_pow, and_mask15]
  omega

theorem varNibble_add16 (y : Nat) (hy : y < 16) : ((y + 16) >>> 4) &&& 0xf = 1 := by
  rw [Nat.shiftRight_eq_div_pow, and_mask15]
  omega

theorem v1_fst (nanos rb : Nat) (mac : List Nat) (last : Nat) :
    (UUID.v1 nanos rb mac last).1 =
      { field_low := guardTs nanos last % 4294967296,
        field_mid := guardTs nanos last / 4294967296 % 65536,
        field_high_and_version := guardTs nanos last / 281474976710656 % 4096 + 4096,
        clock_seq_high_and_reserved := rb % 16384 / 256 % 16 + 16,
        clock_seq_low := rb % 16384 % 256,
        node := mac } := by
  rw [v1_eq]

theorem v1_snd (nanos rb : Nat) (mac : List Nat) (last : Nat) :
    (UUID.v1 nanos rb mac last).2 = guardTs nanos last := by
  rw [v1_eq]

theorem v2_fst (d : Domain) (nanos rb : Nat) (mac : List Nat) (last : Nat) :
    (UUID.v2 d nanos rb mac last).1 =
      { field_low := guardTs nanos last % 4294967296,
        field_mid := guardTs nanos last / 4294967296 % 65536,
        field_high_and_version := guardTs nanos last / 281474976710656 % 4096 + 8192,
        clock_seq_high_and_reserved := rb % 16384 / 256 % 16 + 16,
        clock_seq_low := d.val,
        node := mac } := by
  rw [v2_eq]

theorem v2_snd (d : Domain) (nanos rb : Nat) (mac : List Nat) (last : Nat) :
    (UUID.v2 d nanos rb mac last).2 = guardTs nanos last := by
  rw [v2_eq]

theorem embeddedTime_mk (fl fm fhv a b : Nat) (nd : List Nat) (hfm : fm < 65536)
    (hfl : fl < 4294967296) :
    embeddedTime ⟨fl, fm, fhv, a, b, nd⟩ =
      fhv % 4096 * 281474976710656 + fm * 4294967296 + fl :=
  embeddedTime_eq _ hfm hfl

theorem get_time_mk (fl fm fhv a b : Nat) (nd : List Nat) (hfm : fm < 65536)
    (hfl : fl < 4294967296) :
    Layout.get_time? ⟨fl, fm, fhv, a, b, nd⟩ =
      if fhv * 281474976710656 + fm * 4294967296 + fl < UTC_EPOCH then none
      else some (fhv * 281474976710656 + fm * 4294967296 + fl - UTC_EPOCH) :=
  get_time_eq _ hfm hfl

theorem UTC_EPOCH_eq : UTC_EPOCH = 122192928000000000 := rfl

/-! ### The monotonicity guard -/

theorem guardTs_gt (nanos last : Nat) (h : last + 1 < 2 ^ 64) :
    last < guardTs nanos last := by
  unfold guardTs
  split
  · omega
  · omega

theorem guardTs_cases (nanos last : Nat) :
    guardTs nanos last ≤ last + 1 ∨ guardTs nanos last < 2 ^ 60 := by
  unfold guardTs
  split
  · left; omega
  · right; exact tsNew_lt nanos

theorem stepCall_snd_guarded (c : TimeCall) (hc : c.isGuarded = true) (last : Nat) :
    ∃ nanos, (stepCall c last).2 = guardTs nanos last := by
  cases c with
  | callV1 nanos rb mac => exact ⟨nanos, v1_snd nanos rb mac last⟩
  | callV2 d nanos rb mac => exact ⟨nanos, v2_snd d nanos rb mac last⟩
  | callFromMac v mac nanos rb => simp [TimeCall.isGuarded] at hc

theorem stepCall_fst_embedded (c : TimeCall) (hc : c.isGuarded = true) (last : Nat) :
    embeddedTime (stepCall c last).1 = (stepCall c last).2 % 2 ^ 60 := by
  cases c with
  | callV1 nanos rb mac =>
    show embeddedTime (UUID.v1 nanos rb mac last).1 = (UUID.v1 nanos rb mac last).2 % 2 ^ 60
    rw [v1_fst, v1_snd, embeddedTime_mk _ _ _ _ _ _ (by omega) (by omega)]
    omega
  | callV2 d nanos rb mac =>
    show embeddedTime (UUID.v2 d nanos rb mac last).1 =
      (UUID.v2 d nanos rb mac last).2 % 2 ^ 60
    rw [v2_fst, v2_snd, embeddedTime_mk _ _ _ _ _ _ (by omega) (by omega)]
    omega
  | callFromMac v mac nanos rb => simp [TimeCall.isGuarded] at hc

theorem runCalls_chain (cs : List TimeCall) :
    ∀ last : Nat, (∀ c ∈ cs, c.isGuarded = true) → last + cs.length < 2 ^ 64 →
      2 ^ 60 + cs.length < 2 ^ 64 →
      List.Chain (· < ·) last ((runCalls cs last).map Prod.snd) := by
  induction cs with
  | nil => intro last _ _ _; exact List.Chain.nil
  | cons c cs ih =>
    intro last hg h1 h2
    obtain ⟨nanos, hsnd⟩ := stepCall_snd_guarded c (hg c (List.mem_cons_self c cs)) last
    simp only [runCalls, List.map_cons, List.length_cons] at h1 h2 ⊢
    refine List.Chain.cons ?_ ?_
    · rw [hsnd]
      exact guardTs_gt nanos last (by omega)
    · refine ih (stepCall c last).2 (fun x hx => hg x (List.mem_cons_of_mem c hx)) ?_ ?_
      · have hcase := guardTs_cases nanos last
        rw [hsnd]
        omega
      · omega

theorem runCalls_embedded (cs : List TimeCall) :
    ∀ last : Nat, (∀ c ∈ cs, c.isGuarded = true) →
      ∀ p ∈ runCalls cs last, embeddedTime p.1 = p.2 % 2 ^ 60 := by
  induction cs with
  | nil => intro last _ p hp; simp [runCalls] at hp
  | cons c cs ih =>
    intro last hg p hp
    simp only [runCalls, List.mem_cons] at hp
    rcases hp with rfl | hp
    · exact stepCall_fst_embedded c (hg c (List.mem_cons_self c cs)) last
    · exact ih _ (fun x hx => hg x (List.mem_cons_of_mem c hx)) p hp

theorem nibble_add_4096 (x : Nat) (hx : x < 4096) : ((x + 4096) >>> 12) &&& 0xf = 1 := by
  rw [Nat.shiftRight_eq_div_pow, and_mask15]
  omega

theorem nibble_add_8192 (x : Nat) (hx : x < 4096) : ((x + 8192) >>> 12) &&& 0xf = 2 := by
  rw [Nat.shiftRight_eq_div_pow, and_mask15]
  omega

theorem get_version_mk_time (fl fm x csr csl : Nat) (mac : List Nat) (hx : x < 4096) :
    Layout.get_version ⟨fl, fm, x + 4096, csr, csl, mac⟩ = some Version.TIME := by
  simp only [Layout.get_version]
  rw [nibble_add_4096 _ hx]
  norm_num

theorem get_version_mk_dce (fl fm x csr csl : Nat) (mac : List Nat) (hx : x < 4096) :
    Layout.get_version ⟨fl, fm, x + 8192, csr, csl, mac⟩ = some Version.DCE := by
  simp only [Layout.get_version]
  rw [nibble_add_8192 _ hx]
  norm_num

theorem get_variant_mk_rfc (fl fm fhv y csl : Nat) (mac : List Nat) (hy : y < 16) :
    Layout.get_variant ⟨fl, fm, fhv, y + 16, csl, mac⟩ = some Variant.RFC := by
  simp only [Layout.get_variant]
  rw [varNibble_add16 _ hy]
  norm_num

theorem get_time_isSome_mk (fl fm fhv csr csl : Nat) (mac : List Nat) (hfm : fm < 65536)
    (hfl : fl < 4294967296) (hge : 4096 ≤ fhv) :
    Layout.get_time? ⟨fl, fm, fhv, csr, csl, mac⟩ ≠ none := by
  rw [get_time_mk _ _ _ _ _ _ hfm hfl]
  have he := UTC_EPOCH_eq
  rw [if_neg (by omega)]
  simp

/-! ### Claim theorems -/

/-- C1 (corrected).  Threading the process-wide `LAST_TIMESTAMP` cell as
explicit state through any sequence of `UUID::v1` / `UUID::v2` calls and any
wall-clock behaviour: the stored `u64` timestamps strictly increase (within
the `u64` range), the 60-bit timestamp embedded in each returned `Layout` is
the stored value reduced mod `2 ^ 60`, and hence the embedded timestamps
strictly increase as long as every stored value stays below `2 ^ 60`.  (The
original claim, strict increase of the embedded timestamps for *every* clock
behaviour, fails on a 60-bit wraparound: see the counterexample.) -/
theorem c1_guarded_monotonicity (cs : List TimeCall) (last : Nat)
    (hg : ∀ c ∈ cs, c.isGuarded = true)
    (h1 : last + cs.length < 2 ^ 64) (h2 : 2 ^ 60 + cs.length < 2 ^ 64) :
    List.Chain (· < ·) last ((runCalls cs last).map Prod.snd) ∧
    (∀ p ∈ runCalls cs last, embeddedTime p.1 = p.2 % 2 ^ 60) ∧
    ((∀ p ∈ runCalls cs last, p.2 < 2 ^ 60) →
      List.Pairwise (· < ·) ((runCalls cs last).map fun p => embeddedTime p.1)) := by
  refine ⟨runCalls_chain cs last hg h1 h2, runCalls_embedded cs last hg, fun hlt => ?_⟩
  have hpw : List.Pairwise (· < ·) ((runCalls cs last).map Prod.snd) :=
    (List.chain_iff_pairwise.mp (runCalls_chain cs last hg h1 h2)).of_cons
  have hmap : ((runCalls cs last).map fun p => embeddedTime p.1) =
      (runCalls cs last).map Prod.snd :=
    List.map_congr_left fun p hp => by
      rw [runCalls_embedded cs last hg p hp, Nat.mod_eq_of_lt (hlt p hp)]
  rw [hmap]
  exact hpw

/-- Witness for C1 at a concrete two-call run from the initial state 0. -/
theorem c1_guarded_monotonicity_witness :
    List.Chain (· < ·) 0
      ((runCalls [TimeCall.callV1 100 0 [], TimeCall.callV2 Domain.PERSON 250 3 []] 0).map
        Prod.snd) :=
  (c1_guarded_monotonicity [TimeCall.callV1 100 0 [], TimeCall.callV2 Domain.PERSON 250 3 []]
    0 (by decide) (by decide) (by decide)).1

/-- Counterexample for C1 as stated: with the clock first reading the largest
60-bit timestamp and then reading 0, the second guarded call stores
`2 ^ 60`, whose embedded 60-bit image wraps to 0 — the embedded timestamps
of the two returned Layouts are not strictly increasing. -/
theorem c1_embedded_wraparound :
    ¬ List.Pairwise (· < ·)
      ((runCalls [TimeCall.callV1 ((2 ^ 60 - 1 - UTC_EPOCH) * 100) 0 [],
        TimeCall.callV1 0 0 []] 0).map fun p => embeddedTime p.1) := by
  decide

/-- C5 (confirmed).  Every `Layout` returned by `UUID::v1` decodes to version
`TIME` and variant `RFC`, and every `Layout` returned by `UUID::v2` (any
`Domain`) decodes to version `DCE` and variant `RFC`, for all clock readings,
random seeds, MAC addresses and guard states. -/
theorem c5_version_variant_decode (nanos rb : Nat) (mac : List Nat) (last : Nat)
    (d : Domain) :
    (UUID.v1 nanos rb mac last).1.get_version = some Version.TIME ∧
    (UUID.v1 nanos rb mac last).1.get_variant = some Variant.RFC ∧
    (UUID.v2 d nanos rb mac last).1.get_version = some Version.DCE ∧
    (UUID.v2 d nanos rb mac last).1.get_variant = some Variant.RFC := by
  refine ⟨?_, ?_, ?_, ?_⟩
  · rw [v1_fst]
    exact get_version_mk_time _ _ _ _ _ mac (by omega)
  · rw [v1_fst]
    exact get_variant_mk_rfc _ _ _ _ _ mac (by omega)
  · rw [v2_fst]
    exact get_version_mk_dce _ _ _ _ _ mac (by omega)
  · rw [v2_fst]
    exact get_variant_mk_rfc _ _ _ _ _ mac (by omega)

/-- C6 (corrected).  Every `Layout` produced by the RFC-tagging generators
(`UUID::v1`, `UUID::v2`, `UUID::from_mac`, `UUID::v3`, `UUID::v5`) has
`clock_seq_high_and_reserved` in `0x10 ..= 0x1f`: the code shifts the
`Variant::RFC` discriminant (1) into the top nibble, so the top four bits are
`0b0001` — not the RFC 4122 two-bit pattern `0b10` of the original claim
(which would put the byte in `0x80 ..= 0xbf`). -/
theorem c6_variant_nibble (nanos rb : Nat) (mac : List Nat) (last : Nat) (d : Domain)
    (v : Version) (md5 sha1 : String → List Nat) (any : String) (ns : UUID) :
    (16 ≤ (UUID.v1 nanos rb mac last).1.clock_seq_high_and_reserved ∧
      (UUID.v1 nanos rb mac last).1.clock_seq_high_and_reserved ≤ 31) ∧
    (16 ≤ (UUID.v2 d nanos rb mac last).1.clock_seq_high_and_reserved ∧
      (UUID.v2 d nanos rb mac last).1.clock_seq_high_and_reserved ≤ 31) ∧
    (16 ≤ (UUID.from_mac v mac nanos rb).clock_seq_high_and_reserved ∧
      (UUID.from_mac v mac nanos rb).clock_seq_high_and_reserved ≤ 31) ∧
    (16 ≤ (UUID.v3 md5 any ns).clock_seq_high_and_reserved ∧
      (UUID.v3 md5 any ns).clock_seq_high_and_reserved ≤ 31) ∧
    (16 ≤ (UUID.v5 sha1 any ns).clock_seq_high_and_reserved ∧
      (UUID.v5 sha1 any ns).clock_seq_high_and_reserved ≤ 31) := by
  refine ⟨?_, ?_, ?_, ?_, ?_⟩
  · rw [v1_fst]; dsimp only; omega
  · rw [v2_fst]; dsimp only; omega
  · rw [from_mac_eq]; dsimp only; omega
  · simp only [UUID.v3, Variant.val]
    rw [pack_csr]
    omega
  · simp only [UUID.v5, Variant.val]
    rw [pack_csr]
    omega

/-- Counterexample for C6 as stated: a concrete `UUID::from_mac` layout has
`clock_seq_high_and_reserved = 0x10`, which does not lie in `0x80 ..= 0xbf`
(its top two bits are `0b00`, not `0b10`). -/
theorem c6_variant_byte_low :
    ¬ (128 ≤ (UUID.from_mac Version.TIME [0, 0, 0, 0, 0, 0] 0 0).clock_seq_high_and_reserved ∧
      (UUID.from_mac Version.TIME [0, 0, 0, 0, 0, 0] 0 0).clock_seq_high_and_reserved ≤ 191) := by
  decide

/-- C7 (corrected).  `ClockSeq::new(s)` returns exactly the masked seed
`s & 0x3fff`: `fetch_add` yields the pre-increment value of the freshly
created atomic and the incremented cell (`masked seed + 1`) is immediately
discarded — so the output equals its own masked seed, contradicting the
original claim that it is the masked seed incremented by one. -/
theorem c7_clock_seq_value (s : Nat) :
    ClockSeq.new s = s % 16384 ∧ ClockSeq.new s < 16384 ∧
    atomicU16FetchAdd (s &&& 0x3fff) 1 = (s % 16384, (s % 16384 + 1) % 65536) := by
  refine ⟨clockSeqNew_eq s, ?_, ?_⟩
  · rw [clockSeqNew_eq]; omega
  · unfold atomicU16FetchAdd
    rw [and_mask16383]
    norm_num

/-- Counterexample for C7 as stated: at seed 7 the returned sequence equals
the masked seed (it is not distinct from it, and not the masked seed plus
one). -/
theorem c7_seed_not_bumped : ClockSeq.new 7 = 7 &&& 0x3fff := by decide

/-- C8 (corrected).  Formatting `UUID::NAMESPACE_URL` with the `Display`
implementation yields the 36-character string
`6ba7b811-9dad-11d1-80b4-00c04fd430c8` — byte 3 of the constant is `0x11`,
not `0x10` as the original claim's expected string says. -/
theorem c8_namespace_url_display :
    UUID.toStr UUID.NAMESPACE_URL = "6ba7b811-9dad-11d1-80b4-00c04fd430c8" := by
  decide

/-- Counterexample for C8 as stated: the display of `NAMESPACE_URL` is not
the claimed string (which is the display of `NAMESPACE_DNS`). -/
theorem c8_not_dns_string :
    UUID.toStr UUID.NAMESPACE_URL ≠ "6ba7b810-9dad-11d1-80b4-00c04fd430c8" := by
  decide

/-- C9 (confirmed).  `UUID::from_mac` neither reads nor writes the
`LAST_TIMESTAMP` cell: as a step on the explicit guard state it leaves the
state unchanged, and the 60-bit timestamp embedded in the returned `Layout`
is exactly the fresh `Timestamp::new` reading, independent of the guard
state. -/
theorem c9_from_mac_unguarded (v : Version) (mac : List Nat) (nanos rb last : Nat) :
    stepCall (TimeCall.callFromMac v mac nanos rb) last =
      (UUID.from_mac v mac nanos rb, last) ∧
    embeddedTime (UUID.from_mac v mac nanos rb) = Timestamp.new nanos := by
  refine ⟨rfl, ?_⟩
  rw [from_mac_eq, embeddedTime_mk _ _ _ _ _ _ (by omega) (by omega)]
  have hlt := tsNew_lt nanos
  have hv := versionVal_lt v
  omega

/-! ### The spec-side digest mapping and byte decomposition -/

/-- The digest-to-`Layout` mapping as the specification words it: bytes 0-3
big-endian into `field_low`; bytes 4-5 into `field_mid`; bytes 6-7 masked to
12 bits, OR'd with the version nibble shifted into bits 12-15, into
`field_high_and_version`; byte 8 masked to its low nibble OR'd with `1 << 4`
into `clock_seq_high_and_reserved`; byte 9 into `clock_seq_low`; bytes 10-15
into `node`. -/
def specDigestMap (version : Nat) (d : List Nat) : Layout :=
  { field_low := d.getD 0 0 * 2 ^ 24 + d.getD 1 0 * 2 ^ 16 + d.getD 2 0 * 2 ^ 8 + d.getD 3 0,
    field_mid := d.getD 4 0 * 2 ^ 8 + d.getD 5 0,
    field_high_and_version := (d.getD 6 0 * 2 ^ 8 + d.getD 7 0) % 2 ^ 12 + version * 2 ^ 12,
    clock_seq_high_and_reserved := d.getD 8 0 % 2 ^ 4 + 2 ^ 4,
    clock_seq_low := d.getD 9 0,
    node := [d.getD 10 0, d.getD 11 0, d.getD 12 0, d.getD 13 0, d.getD 14 0, d.getD 15 0] }

/-- The inverse byte decomposition as the specification words it: bytes 0-3
big-endian as `field_low`, bytes 4-5 as `field_mid`, bytes 6-7 as
`field_high_and_version`, byte 8 and byte 9 as the clock-sequence bytes,
bytes 10-15 as `node`. -/
def specDecompose (u : UUID) : Layout :=
  match u.bytes with
  | b0 :: b1 :: b2 :: b3 :: b4 :: b5 :: b6 :: b7 :: b8 :: b9 :: rest =>
    { field_low := b0 * 2 ^ 24 + b1 * 2 ^ 16 + b2 * 2 ^ 8 + b3,
      field_mid := b4 * 2 ^ 8 + b5,
      field_high_and_version := b6 * 2 ^ 8 + b7,
      clock_seq_high_and_reserved := b8,
      clock_seq_low := b9,
      node := rest }
  | _ =>
    { field_low := 0, field_mid := 0, field_high_and_version := 0,
      clock_seq_high_and_reserved := 0, clock_seq_low := 0, node := [] }

theorem getD_lt_of_mem {l : List Nat} (hb : ∀ b ∈ l, b < 256) (i : Nat) :
    l.getD i 0 < 256 := by
  rw [List.getD_eq_getElem?_getD]
  cases h : l[i]? with
  | none => simp
  | some x =>
    simp only [Option.getD_some]
    obtain ⟨hlt, heq⟩ := List.getElem?_eq_some_iff.mp h
    rw [← heq]
    exact hb _ (List.getElem_mem hlt)

theorem getD_take_lt (l : List Nat) (n i : Nat) (h : i < n) :
    (l.take n).getD i 0 = l.getD i 0 := by
  rw [List.getD_eq_getElem?_getD, List.getD_eq_getElem?_getD, List.getElem?_take_of_lt h]

theorem specDigestMap_take16 (v : Nat) (d : List Nat) :
    specDigestMap v (d.take 16) = specDigestMap v d := by
  simp only [specDigestMap]
  simp [getD_take_lt]

theorem v3_spec_map (md5 : String → List Nat) (any : String) (ns : UUID)
    (hb : ∀ i, (md5 (UUID.data any ns)).getD i 0 < 256) :
    UUID.v3 md5 any ns = specDigestMap 3 (md5 (UUID.data any ns)) := by
  simp only [UUID.v3, specDigestMap, Version.val, Variant.val, Layout.mk.injEq]
  refine ⟨?_, ?_, ?_, ?_, trivial, trivial⟩
  · rw [lor4_eq_add (hb 1) (hb 2) (hb 3)]
    omega
  · rw [lor2_eq_add (hb 5)]
    omega
  · rw [lor2_eq_add (hb 7), pack_fhv12]
    omega
  · rw [pack_csr]
    omega

theorem v5_spec_map (sha1 : String → List Nat) (any : String) (ns : UUID)
    (hb : ∀ i, (sha1 (UUID.data any ns)).getD i 0 < 256) :
    UUID.v5 sha1 any ns = specDigestMap 5 ((sha1 (UUID.data any ns)).take 16) := by
  rw [specDigestMap_take16]
  simp only [UUID.v5, specDigestMap, Version.val, Variant.val, Layout.mk.injEq]
  refine ⟨?_, ?_, ?_, ?_, trivial, trivial⟩
  · rw [lor4_eq_add (hb 1) (hb 2) (hb 3)]
    omega
  · rw [lor2_eq_add (hb 5)]
    omega
  · rw [lor2_eq_add (hb 7), pack_fhv12]
    omega
  · rw [pack_csr]
    omega

theorem byteHex_length (b : Nat) : (byteHex b).length = 2 := rfl

theorem toStr_length (u : UUID) : (UUID.toStr u).length = 36 := by
  simp only [UUID.toStr, String.length_append, byteHex_length]
  rfl

/-- C2 (confirmed).  `UUID::v3(S, N)` hashes the display string of `N`
concatenated with `S` and maps the 16-byte MD5 digest by the claimed field
mapping; `UUID::v5` does the same with the first 16 bytes of the SHA-1
digest and version value 5.  The hash input really is the namespace's
36-character display string followed by the name. -/
theorem c2_name_based_mapping (md5 sha1 : String → List Nat) (any : String) (ns : UUID)
    (h3 : ∀ b ∈ md5 (UUID.data any ns), b < 256)
    (h5 : ∀ b ∈ sha1 (UUID.data any ns), b < 256) :
    (UUID.toStr ns).length = 36 ∧
    UUID.data any ns = UUID.toStr ns ++ any ∧
    UUID.v3 md5 any ns = specDigestMap 3 (md5 (UUID.toStr ns ++ any)) ∧
    UUID.v5 sha1 any ns = specDigestMap 5 ((sha1 (UUID.toStr ns ++ any)).take 16) := by
  have hdata : UUID.data any ns = UUID.toStr ns ++ any := rfl
  refine ⟨toStr_length ns, hdata, ?_, ?_⟩
  · rw [← hdata]
    exact v3_spec_map md5 any ns (getD_lt_of_mem h3)
  · rw [← hdata]
    exact v5_spec_map sha1 any ns (getD_lt_of_mem h5)

/-- Witness for C2 with concrete digest functions, name and namespace. -/
theorem c2_name_based_mapping_witness :
    (∀ b ∈ (fun _ : String => List.range 16) (UUID.data "x" UUID.NAMESPACE_DNS), b < 256) ∧
    UUID.v3 (fun _ => List.range 16) "x" UUID.NAMESPACE_DNS =
      specDigestMap 3
        ((fun _ : String => List.range 16) (UUID.toStr UUID.NAMESPACE_DNS ++ "x")) :=
  ⟨by decide,
    (c2_name_based_mapping (fun _ => List.range 16) (fun _ => List.range 20) "x"
      UUID.NAMESPACE_DNS (by decide) (by decide)).2.2.1⟩

/-- C3 (corrected).  `get_time()` reconstructs the 64-bit value
`t = (field_high_and_version << 48) | (field_mid << 32) | field_low` without
masking the version nibble off (the original claim's `& 0x0fff` mask is not
in the code): it returns `t - UTC_EPOCH` whenever `t ≥ UTC_EPOCH` and fails
by underflow exactly when `t < UTC_EPOCH`. -/
theorem c3_get_time_unmasked (l : Layout) (h : l.WF) :
    (UTC_EPOCH ≤ l.field_high_and_version * 281474976710656 + l.field_mid * 4294967296 +
        l.field_low →
      l.get_time? = some (l.field_high_and_version * 281474976710656 +
        l.field_mid * 4294967296 + l.field_low - UTC_EPOCH)) ∧
    (l.field_high_and_version * 281474976710656 + l.field_mid * 4294967296 +
        l.field_low < UTC_EPOCH →
      l.get_time? = none) := by
  obtain ⟨hfl, hfm, -, -, -, -, -⟩ := h
  rw [get_time_eq l (by omega) (by omega)]
  constructor
  · intro hle
    rw [if_neg (by omega)]
  · intro hlt
    rw [if_pos hlt]

/-- Witness for C3 at a concrete well-formed layout whose unmasked
reconstruction is `2 ^ 60`. -/
theorem c3_get_time_unmasked_witness :
    Layout.WF ⟨0, 0, 4096, 0, 0, [0, 0, 0, 0, 0, 0]⟩ ∧
    Layout.get_time? ⟨0, 0, 4096, 0, 0, [0, 0, 0, 0, 0, 0]⟩ =
      some (4096 * 281474976710656 + 0 * 4294967296 + 0 - UTC_EPOCH) :=
  ⟨by decide, (c3_get_time_unmasked _ (by decide)).1 (by decide)⟩

/-- Counterexample for C3 as stated: at this layout the claim's masked
reconstruction (`embeddedTime`) is 0, below the epoch offset — so the claim
predicts an underflow failure — yet `get_time` succeeds, because the code
includes the version nibble in the reconstructed value. -/
theorem c3_masked_prediction_wrong :
    embeddedTime ⟨0, 0, 4096, 0, 0, [0, 0, 0, 0, 0, 0]⟩ < UTC_EPOCH ∧
    Layout.get_time? ⟨0, 0, 4096, 0, 0, [0, 0, 0, 0, 0, 0]⟩ ≠ none := by
  decide

theorem as_bytes_decompose (l : Layout) (h : l.WF) : specDecompose l.as_bytes = l := by
  obtain ⟨fl, fm, fhv, csr, csl, nd⟩ := l
  obtain ⟨hfl, hfm, hfhv, hcsr, hcsl, -, -⟩ := h
  norm_num at hfl hfm hfhv
  simp only [Layout.as_bytes, specDecompose, be32, be16, List.cons_append, List.nil_append]
  norm_num [Layout.mk.injEq]
  refine ⟨?_, ?_, ?_⟩ <;> omega

/-- C4 (confirmed).  Serializing a well-formed `Layout` with `as_bytes` and
decomposing the 16 bytes by the spec's inverse byte decomposition
reconstructs the five fields exactly; consequently `as_bytes` is injective
on well-formed Layouts. -/
theorem c4_as_bytes_roundtrip (l : Layout) (h : l.WF) :
    specDecompose l.as_bytes = l ∧
    ∀ l2 : Layout, l2.WF → l.as_bytes = l2.as_bytes → l = l2 := by
  refine ⟨as_bytes_decompose l h, fun l2 h2 he => ?_⟩
  rw [← as_bytes_decompose l h, he, as_bytes_decompose l2 h2]

/-- Witness for C4 at a concrete well-formed layout. -/
theorem c4_as_bytes_roundtrip_witness :
    Layout.WF ⟨1, 2, 4099, 4, 5, [9, 8, 7, 6, 5, 4]⟩ ∧
    specDecompose (Layout.as_bytes ⟨1, 2, 4099, 4, 5, [9, 8, 7, 6, 5, 4]⟩) =
      ⟨1, 2, 4099, 4, 5, [9, 8, 7, 6, 5, 4]⟩ :=
  ⟨by decide, (c4_as_bytes_roundtrip _ (by decide)).1⟩

theorem versionVal_pos (v : Version) : 1 ≤ v.val := by
  cases v <;> decide

/-- C10 (confirmed).  `get_time()` cannot hit its underflow-panic branch on
any `Layout` whose version nibble is nonzero — the unmasked reconstruction
then is at least `2 ^ 60 > UTC_EPOCH` — and in particular it never panics on
a layout produced by `v1`, `v2`, `from_mac`, `v3` or `v5`. -/
theorem c10_get_time_no_panic :
    (∀ l : Layout, l.WF → (l.field_high_and_version >>> 12) &&& 0xf ≠ 0 →
      l.get_time? ≠ none) ∧
    (∀ nanos rb : Nat, ∀ mac : List Nat, ∀ last : Nat,
      (UUID.v1 nanos rb mac last).1.get_time? ≠ none) ∧
    (∀ d : Domain, ∀ nanos rb : Nat, ∀ mac : List Nat, ∀ last : Nat,
      (UUID.v2 d nanos rb mac last).1.get_time? ≠ none) ∧
    (∀ v : Version, ∀ mac : List Nat, ∀ nanos rb : Nat,
      (UUID.from_mac v mac nanos rb).get_time? ≠ none) ∧
    (∀ md5 : String → List Nat, ∀ any : String, ∀ ns : UUID,
      (∀ b ∈ md5 (UUID.data any ns), b < 256) → (UUID.v3 md5 any ns).get_time? ≠ none) ∧
    (∀ sha1 : String → List Nat, ∀ any : String, ∀ ns : UUID,
      (∀ b ∈ sha1 (UUID.data any ns), b < 256) → (UUID.v5 sha1 any ns).get_time? ≠ none) := by
  have he := UTC_EPOCH_eq
  refine ⟨?_, ?_, ?_, ?_, ?_, ?_⟩
  · intro l hWF hnib
    obtain ⟨hfl, hfm, hfhv, -, -, -, -⟩ := hWF
    rw [Nat.shiftRight_eq_div_pow, and_mask15] at hnib
    rw [get_time_eq l (by omega) (by omega), if_neg (by omega)]
    simp
  · intro nanos rb mac last
    rw [v1_fst]
    exact get_time_isSome_mk _ _ _ _ _ mac (by omega) (by omega) (by omega)
  · intro d nanos rb mac last
    rw [v2_fst]
    exact get_time_isSome_mk _ _ _ _ _ mac (by omega) (by omega) (by omega)
  · intro v mac nanos rb
    rw [from_mac_eq]
    have hv := versionVal_pos v
    exact get_time_isSome_mk _ _ _ _ _ mac (by omega) (by omega) (by omega)
  · intro md5 any ns hb
    have hd := getD_lt_of_mem hb
    rw [v3_spec_map md5 any ns hd]
    simp only [specDigestMap]
    have h0 := hd 0
    have h1 := hd 1
    have h2 := hd 2
    have h3 := hd 3
    have h4 := hd 4
    have h5 := hd 5
    exact get_time_isSome_mk _ _ _ _ _ _ (by omega) (by omega) (by omega)
  · intro sha1 any ns hb
    have hd := getD_lt_of_mem hb
    rw [v5_spec_map sha1 any ns hd, specDigestMap_take16]
    simp only [specDigestMap]
    have h0 := hd 0
    have h1 := hd 1
    have h2 := hd 2
    have h3 := hd 3
    have h4 := hd 4
    have h5 := hd 5
    exact get_time_isSome_mk _ _ _ _ _ _ (by omega) (by omega) (by omega)

/-- Witness for C10 at a concrete well-formed layout with version nibble 2. -/
theorem c10_get_time_no_panic_witness :
    Layout.get_time? ⟨0, 0, 8192, 0, 0, [0, 0, 0, 0, 0, 0]⟩ ≠ none :=
  c10_get_time_no_panic.1 ⟨0, 0, 8192, 0, 0, [0, 0, 0, 0, 0, 0]⟩ (by decide) (by decide)

end Uuid
